import Mathlib

/-!
Verification of the yorm transaction engine (identity map / unit of work),
shallowly embedded from the Rust sources:
  src/data.rs        - ObjectId, DataType, Value and its conversions
  src/object.rs      - Schema and the Object/Store contract
  src/storage.rs     - the sqlite-backed StorageTransaction impl
  src/transaction.rs - Transaction, Tx handles, ObjectState, commit
  orm-derive/src/lib.rs - the generated as_row / from_row pair

Machine integers (i64) are modelled as Int (no arithmetic overflows occur in
the modelled code paths); f64 payloads are carried opaquely as their bit
pattern (the code never computes with them, it only moves them).  Rust panics
are modelled by the TxResult.fatal constructor, recoverable Result errors by
TxResult.err / Except.error.
-/

namespace Yorm

/-- ObjectId from data.rs: a newtype over i64; modelled as Int. -/
abbrev ObjectId := Int

/-- DataType from data.rs: the five supported primitive kinds. -/
inductive DataType where
  | String
  | Bytes
  | Int64
  | Float64
  | Bool
deriving DecidableEq, Repr

/-- Value from data.rs: the closed tagged union over the five kinds.
Cow payloads are treated as owned values; the f64 payload is its bit
pattern, carried opaquely. -/
inductive Value where
  | String (s : String)
  | Bytes (b : List UInt8)
  | Int64 (n : Int)
  | Float64 (bits : UInt64)
  | Bool (b : Bool)
deriving DecidableEq, Repr

/-- A field of a mapped object: one of the five primitive Rust types
(String, Vec<u8>, i64, f64, bool) that the derive macro supports. -/
inductive FieldVal where
  | str (s : String)
  | bytes (b : List UInt8)
  | i64 (n : Int)
  | f64 (bits : UInt64)
  | bool (b : Bool)
deriving DecidableEq, Repr

/-- The declared DataType of a field, as computed by make_column_types in
orm-derive (via From<&str> for DataType in data.rs). -/
def FieldVal.kind : FieldVal → DataType
  | .str _ => DataType.String
  | .bytes _ => DataType.Bytes
  | .i64 _ => DataType.Int64
  | .f64 _ => DataType.Float64
  | .bool _ => DataType.Bool

/-- The From<primitive> for Value impls in data.rs (`.into()` in the
generated as_row). -/
def FieldVal.toValue : FieldVal → Value
  | .str s => Value.String s
  | .bytes b => Value.Bytes b
  | .i64 n => Value.Int64 n
  | .f64 x => Value.Float64 x
  | .bool b => Value.Bool b

/-- The From<Value> for primitive impls in data.rs, selected by the field's
declared type (`.into()` in the generated from_row).  A wrong tag panics
("Wrong type extracted from Value"); the panic is modelled as none. -/
def valueIntoField : DataType → Value → Option FieldVal
  | DataType.String, Value.String s => some (FieldVal.str s)
  | DataType.Bytes, Value.Bytes b => some (FieldVal.bytes b)
  | DataType.Int64, Value.Int64 n => some (FieldVal.i64 n)
  | DataType.Float64, Value.Float64 x => some (FieldVal.f64 x)
  | DataType.Bool, Value.Bool b => some (FieldVal.bool b)
  | _, _ => none

/-- Row from storage.rs: an ordered sequence of Values. -/
abbrev Row := List Value

/-- The generated as_row (make_as_row in orm-derive): one Value per field,
in declared order, each via `.clone().into()`. -/
def as_row (fields : List FieldVal) : Row :=
  fields.map FieldVal.toValue

/-- Vec::pop on the row (used by the generated from_row): removes and
returns the last element; none models the `.unwrap()` panic on empty. -/
def popLast (row : Row) : Option (Value × Row) :=
  match row.getLast? with
  | none => none
  | some v => some (v, row.dropLast)

/-- The generated from_row body (make_from_row in orm-derive) processes the
field list in reverse declaration order, each field doing
`row.pop().unwrap().into()`.  This helper runs over the reversed list of
declared field types. -/
def fromRowRev : List DataType → Row → Option (List FieldVal × Row)
  | [], row => some ([], row)
  | d :: ds, row =>
    match popLast row with
    | none => none
    | some (v, row') =>
      match valueIntoField d v with
      | none => none
      | some fv =>
        match fromRowRev ds row' with
        | none => none
        | some (rest, row'') => some (fv :: rest, row'')

/-- The generated from_row: given the declared field types (in declaration
order) and a row, reconstruct the field values.  none models a panic
(short row, or a value of the wrong kind). -/
def from_row (kinds : List DataType) (row : Row) : Option (List FieldVal) :=
  match fromRowRev kinds.reverse row with
  | none => none
  | some (revFields, _) => some revFields.reverse

/-- Rust str::contains at the character-list level: does needle occur as a
contiguous substring of hay?  startsWithList is str::starts_with. -/
def startsWithList : List Char → List Char → Bool
  | [], _ => true
  | _ :: _, [] => false
  | a :: as_, b :: bs => a = b && startsWithList as_ bs

/-- hasSubList needle hay: needle occurs contiguously inside hay. -/
def hasSubList : List Char → List Char → Bool
  | n, [] => n.isEmpty
  | n, h :: hs => startsWithList n (h :: hs) || hasSubList n hs

/-- Rust String::contains(needle) on hay. -/
def strContains (hay needle : String) : Bool :=
  hasSubList needle.data hay.data

/-- Schema from object.rs. -/
structure Schema where
  table_name : String
  field_names : List String
  column_names : List String
  column_types : List DataType
  type_name : String
deriving DecidableEq, Repr

/-- Schema::get_same_column_name helper: scan column_names from index 0 and
return the first declared column that contains the given string, with its
index. -/
def findSameColumn (s : String) : List String → Nat → Option (String × Nat)
  | [], _ => none
  | c :: rest, i =>
    if strContains c s then some (c, i) else findSameColumn s rest (i + 1)

/-- Schema::get_same_column_name from object.rs. -/
def Schema.get_same_column_name (schema : Schema) (s : String) : Option (String × Nat) :=
  findSameColumn s schema.column_names 0

/-- rusqlite::Error, restricted to the shapes storage.rs matches on. -/
inductive SqliteError where
  | SqliteFailure (code : Int) (msg : Option String)
  | QueryReturnedNoRows
  | InvalidColumnType (idx : Nat) (name : String) (declType : String)
  | other (descr : String)
deriving DecidableEq, Repr

/-- The engine's typed Error (crate::error), with the variants constructed
in storage.rs and transaction.rs. -/
inductive Error where
  | NotFound (objectId : ObjectId) (typeName : String)
  | LockConflict
  | MissingColumn (typeName attrName tableName columnName : String)
  | UnexpectedType (typeName attrName tableName columnName : String)
      (expected : DataType) (gotType : String)
  | Backend (e : SqliteError)
deriving DecidableEq, Repr

/-- Modelled from the spec: error.rs (the crate's error module, not under
src/) provides the From<rusqlite::Error> conversion used by every `?` and
`err.into()` in storage.rs; per spec section 7, "Backend-internal errors
otherwise propagate opaquely", so the conversion wraps the raw backend
error without interpreting it. -/
def Error.fromSqlite (e : SqliteError) : Error :=
  Error.Backend e

/-- Result of running a piece of Rust code: a value, a recoverable typed
error (Result::Err), or a panic (fatal). -/
inductive TxResult (α : Type) where
  | ok (a : α)
  | err (e : Error)
  | fatal (msg : String)
deriving DecidableEq, Repr

def TxResult.isFatal : TxResult α → Bool
  | .fatal _ => true
  | _ => false

/-- has_missing_column_msg from storage.rs. -/
def has_missing_column_msg (s : String) : Bool :=
  strContains s "no such column:" || strContains s "has no column named"

/-- Rust `msg.split(' ').last().unwrap()`: the last space-separated token of
the message, i.e. the characters after the last space (split never yields
an empty iterator, so the unwrap cannot fail). -/
def lastToken (msg : String) : String :=
  String.mk ((msg.data.reverse.takeWhile (fun c => c != ' ')).reverse)

/-- parse_missing_column from storage.rs: take the last space-separated word
of the backend message, resolve it against the schema's column list
(first declared column containing it), and build the MissingColumn error.
none models the `.expect("wrong")` / index panics when resolution fails. -/
def parse_missing_column (msg : String) (schema : Schema) : Option Error :=
  let column_name := lastToken msg
  match schema.get_same_column_name column_name with
  | none => none
  | some (colName, i) =>
    match schema.field_names[i]? with
    | none => none
    | some attr =>
      some (Error.MissingColumn schema.type_name attr schema.table_name colName)

/-- StorageTransaction::create_table for rusqlite (storage.rs lines 45-63).
The two backend interactions (prepare, execute) are passed in as their raw
outcomes. -/
def createTableImpl (prepareRes : Except SqliteError Unit)
    (execRes : Except SqliteError Unit) : TxResult Unit :=
  match prepareRes with
  | .error e => .err (Error.fromSqlite e)
  | .ok _ =>
    match execRes with
    | .error (SqliteError.SqliteFailure c (some s)) =>
      if strContains s "database is locked" then .err Error.LockConflict
      else .err (Error.fromSqlite (SqliteError.SqliteFailure c (some s)))
    | .error e => .err (Error.fromSqlite e)
    | .ok _ => .ok ()

/-- StorageTransaction::insert_row for rusqlite (storage.rs lines 65-90):
a prepare failure is checked for the missing-column signal, any other
prepare or insert failure propagates via `?` / `err.into()`. -/
def insertRowImpl (schema : Schema) (prepareRes : Except SqliteError Unit)
    (insertRes : Except SqliteError ObjectId) : TxResult ObjectId :=
  match prepareRes with
  | .error (SqliteError.SqliteFailure c (some s)) =>
    if has_missing_column_msg s then
      match parse_missing_column s schema with
      | some e => .err e
      | none => .fatal "wrong"
    else .err (Error.fromSqlite (SqliteError.SqliteFailure c (some s)))
  | .error e => .err (Error.fromSqlite e)
  | .ok _ =>
    match insertRes with
    | .error e => .err (Error.fromSqlite e)
    | .ok id => .ok id

/-- StorageTransaction::update_row for rusqlite (storage.rs lines 92-102):
both stages propagate failures raw via `?`. -/
def updateRowImpl (prepareRes : Except SqliteError Unit)
    (execRes : Except SqliteError Unit) : TxResult Unit :=
  match prepareRes with
  | .error e => .err (Error.fromSqlite e)
  | .ok _ =>
    match execRes with
    | .error e => .err (Error.fromSqlite e)
    | .ok _ => .ok ()

/-- StorageTransaction::delete_row for rusqlite (storage.rs lines 140-144). -/
def deleteRowImpl (execRes : Except SqliteError Unit) : TxResult Unit :=
  match execRes with
  | .error e => .err (Error.fromSqlite e)
  | .ok _ => .ok ()

/-- StorageTransaction::select_row for rusqlite (storage.rs lines 104-138).
The prepare outcome and the query_row outcome are passed in raw; the
query success value is the closure's output, i.e. the parse_sqlite_row
result (kept abstract here).  A query failure other than
QueryReturnedNoRows hits the catch-all `panic!`. -/
def selectRowImpl (id : ObjectId) (schema : Schema)
    (prepareRes : Except SqliteError Unit)
    (queryRes : Except SqliteError (TxResult Row)) : TxResult Row :=
  match prepareRes with
  | .error (SqliteError.SqliteFailure c (some s)) =>
    if has_missing_column_msg s then
      match parse_missing_column s schema with
      | some e => .err e
      | none => .fatal "wrong"
    else .err (Error.fromSqlite (SqliteError.SqliteFailure c (some s)))
  | .error e => .err (Error.fromSqlite e)
  | .ok _ =>
    match queryRes with
    | .error SqliteError.QueryReturnedNoRows =>
      .err (Error.NotFound id schema.type_name)
    | .ok result => result
    | .error _ => .fatal "Not implemented from select row"

/-- A cached, type-erased object payload (dyn Store): it can produce its
row (as_row) and its schema (describe), and is downcast by type name. -/
structure StoredObj where
  schema : Schema
  fields : List FieldVal
deriving DecidableEq, Repr

/-- An Rc<RefCell<dyn Store>> cache cell: payload plus the RefCell borrow
flag (0 = free, n > 0 = n shared borrows, -1 = one exclusive borrow),
as in core::cell. -/
structure Cell where
  value : StoredObj
  flag : Int
deriving DecidableEq, Repr

/-- ObjectState from transaction.rs. -/
inductive ObjectState where
  | Clean
  | Modified
  | Removed
deriving DecidableEq, Repr

/-- Association-list lookup keyed by ObjectId (HashMap::get). -/
def assocFind [DecidableEq α] (k : α) : List (α × β) → Option β
  | [] => none
  | (k', v) :: rest => if k = k' then some v else assocFind k rest

/-- Association-list insert keyed by ObjectId (HashMap::insert replaces an
existing binding). -/
def assocInsert [DecidableEq α] (k : α) (v : β) : List (α × β) → List (α × β)
  | [] => [(k, v)]
  | (k', v') :: rest =>
    if k = k' then (k, v) :: rest else (k', v') :: assocInsert k v rest

/-- The per-transaction mutable state: the two HashMaps of transaction.rs
(cache: ObjectId -> Rc<RefCell<dyn Store>>, states: ObjectId ->
Rc<RefCell<ObjectState>>).  The state cells are only ever borrowed
transiently inside a single call, so no borrow flag is tracked for them. -/
structure TxnState where
  cache : List (ObjectId × Cell)
  states : List (ObjectId × ObjectState)
deriving DecidableEq, Repr

/-- The storage backend (the dyn StorageTransaction the Transaction owns),
given by its responses to each operation. -/
structure Backend where
  table_exists : String → Except Error Bool
  create_table : Schema → Except Error Unit
  insert_row : Schema → Row → Except Error ObjectId
  update_row : ObjectId → Schema → Row → Except Error Unit
  select_row : ObjectId → Schema → Except Error Row
  delete_row : ObjectId → Schema → Except Error Unit
  commitTx : Except Error Unit
  rollbackTx : Except Error Unit

/-- One observed call to the storage backend. -/
inductive StorageOp where
  | table_exists (table : String)
  | create_table (table : String)
  | insert_row (table : String) (row : Row)
  | update_row (id : ObjectId) (row : Row)
  | select_row (id : ObjectId)
  | delete_row (id : ObjectId)
  | commitTx
  | rollbackTx
deriving DecidableEq, Repr

/-- Tx<'a, T> from transaction.rs: the typed handle.  The shared Rc cells
are reached through the transaction state via the identity; the expected
concrete type T is represented by its type name (downcast target). -/
structure Handle where
  id : ObjectId
  typeName : String
deriving DecidableEq, Repr

/-- Transaction::ensure_table (transaction.rs lines 36-41). -/
def ensure_table (b : Backend) (schema : Schema) :
    Except Error Unit × List StorageOp :=
  match b.table_exists schema.table_name with
  | .error e => (.error e, [StorageOp.table_exists schema.table_name])
  | .ok true => (.ok (), [StorageOp.table_exists schema.table_name])
  | .ok false =>
    match b.create_table schema with
    | .error e =>
      (.error e, [StorageOp.table_exists schema.table_name,
                  StorageOp.create_table schema.table_name])
    | .ok _ =>
      (.ok (), [StorageOp.table_exists schema.table_name,
                StorageOp.create_table schema.table_name])

/-- Transaction::create (transaction.rs lines 43-59): ensure the table,
insert the row to obtain the identity, register the object Clean in the
cache, return the handle.  Also returns the list of backend calls made. -/
def Transaction.create (b : Backend) (ts : TxnState) (obj : StoredObj) :
    TxResult Handle × TxnState × List StorageOp :=
  match ensure_table b obj.schema with
  | (.error e, ops) => (.err e, ts, ops)
  | (.ok _, ops) =>
    match b.insert_row obj.schema (as_row obj.fields) with
    | .error e =>
      (.err e, ts,
       ops ++ [StorageOp.insert_row obj.schema.table_name (as_row obj.fields)])
    | .ok id =>
      (.ok { id := id, typeName := obj.schema.type_name },
       { cache := assocInsert id { value := obj, flag := 0 } ts.cache,
         states := assocInsert id ObjectState.Clean ts.states },
       ops ++ [StorageOp.insert_row obj.schema.table_name (as_row obj.fields)])

/-- Transaction::get (transaction.rs lines 61-89).  The expected type T is
given by its schema (T::describe(), T::type_name(), T::from_row).  On a
cache hit the Removed state is rejected with NotFound and no backend call
is made; on a miss the row is selected, decoded, and registered Clean. -/
def Transaction.get (b : Backend) (ts : TxnState) (tSchema : Schema)
    (id : ObjectId) : TxResult Handle × TxnState × List StorageOp :=
  if (assocFind id ts.cache).isSome then
    match assocFind id ts.states with
    | none => (.fatal "state unwrap", ts, [])
    | some st =>
      if st = ObjectState.Removed then
        (.err (Error.NotFound id tSchema.type_name), ts, [])
      else
        (.ok { id := id, typeName := tSchema.type_name }, ts, [])
  else
    match ensure_table b tSchema with
    | (.error e, ops) => (.err e, ts, ops)
    | (.ok _, ops) =>
      match b.select_row id tSchema with
      | .error e => (.err e, ts, ops ++ [StorageOp.select_row id])
      | .ok row =>
        match from_row tSchema.column_types row with
        | none => (.fatal "from_row", ts, ops ++ [StorageOp.select_row id])
        | some fields =>
          (.ok { id := id, typeName := tSchema.type_name },
           { cache := assocInsert id
               { value := { schema := tSchema, fields := fields }, flag := 0 }
               ts.cache,
             states := assocInsert id ObjectState.Clean ts.states },
           ops ++ [StorageOp.select_row id])

/-- Tx::borrow (transaction.rs lines 151-157): panic if the state is
Removed, acquire a shared RefCell borrow (panics while exclusively
borrowed), downcast to T (panics on type mismatch). -/
def Handle.borrow (ts : TxnState) (h : Handle) :
    TxResult (List FieldVal) × TxnState :=
  match assocFind h.id ts.states with
  | none => (.fatal "state unwrap", ts)
  | some st =>
    if st = ObjectState.Removed then
      (.fatal "cannot borrow a removed object", ts)
    else
      match assocFind h.id ts.cache with
      | none => (.fatal "cache unwrap", ts)
      | some cell =>
        if cell.flag < 0 then
          (.fatal "already mutably borrowed", ts)
        else
          let ts1 : TxnState :=
            { ts with cache := assocInsert h.id { cell with flag := cell.flag + 1 } ts.cache }
          if cell.value.schema.type_name = h.typeName then
            (.ok cell.value.fields, ts1)
          else
            (.fatal "downcast", ts1)

/-- Tx::borrow_mut (transaction.rs lines 159-167): panic if Removed, set
the state cell to Modified, acquire the exclusive RefCell borrow (panics
while any borrow is outstanding), downcast to T. -/
def Handle.borrow_mut (ts : TxnState) (h : Handle) :
    TxResult (List FieldVal) × TxnState :=
  match assocFind h.id ts.states with
  | none => (.fatal "state unwrap", ts)
  | some st =>
    if st = ObjectState.Removed then
      (.fatal "cannot borrow a removed object", ts)
    else
      let ts1 : TxnState :=
        { ts with states := assocInsert h.id ObjectState.Modified ts.states }
      match assocFind h.id ts1.cache with
      | none => (.fatal "cache unwrap", ts1)
      | some cell =>
        if cell.flag = 0 then
          let ts2 : TxnState :=
            { ts1 with cache := assocInsert h.id { cell with flag := -1 } ts1.cache }
          if cell.value.schema.type_name = h.typeName then
            (.ok cell.value.fields, ts2)
          else
            (.fatal "downcast", ts2)
        else
          (.fatal "already borrowed", ts1)

/-- Tx::delete (transaction.rs lines 169-174): panic if try_borrow_mut on
the payload cell fails (any borrow outstanding), otherwise set the state
cell to Removed. -/
def Handle.delete (ts : TxnState) (h : Handle) : TxResult Unit × TxnState :=
  match assocFind h.id ts.cache with
  | none => (.fatal "cache unwrap", ts)
  | some cell =>
    if cell.flag = 0 then
      (.ok (), { ts with states := assocInsert h.id ObjectState.Removed ts.states })
    else
      (.fatal "cannot delete a borrowed object", ts)

/-- A mutation performed through an outstanding RefMut guard: overwrites
the payload, touches neither the state cell nor the borrow flag. -/
def writeValue (ts : TxnState) (id : ObjectId) (fields : List FieldVal) : TxnState :=
  match assocFind id ts.cache with
  | none => ts
  | some cell =>
    let cell' : Cell := { cell with value := { cell.value with fields := fields } }
    { ts with cache := assocInsert id cell' ts.cache }

/-- Dropping a Ref guard: the shared borrow count decreases by one. -/
def releaseBorrow (ts : TxnState) (id : ObjectId) : TxnState :=
  match assocFind id ts.cache with
  | none => ts
  | some cell =>
    { ts with cache := assocInsert id { cell with flag := cell.flag - 1 } ts.cache }

/-- Dropping a RefMut guard: the flag returns from -1 to 0. -/
def releaseBorrowMut (ts : TxnState) (id : ObjectId) : TxnState :=
  match assocFind id ts.cache with
  | none => ts
  | some cell =>
    { ts with cache := assocInsert id { cell with flag := cell.flag + 1 } ts.cache }

/-- The loop body of Transaction::commit (transaction.rs lines 92-108):
iterate the states map; Modified sends one update with the payload's
current row, Removed sends one delete, Clean sends nothing; the first
failing write stops the loop and is returned.  Reading the payload is a
shared RefCell borrow, which panics while exclusively borrowed. -/
def commitLoop (b : Backend) (cache : List (ObjectId × Cell)) :
    List (ObjectId × ObjectState) → TxResult Unit × List StorageOp
  | [] => (.ok (), [])
  | (id, st) :: rest =>
    match st with
    | ObjectState.Clean => commitLoop b cache rest
    | ObjectState.Modified =>
      match assocFind id cache with
      | none => (.fatal "cache unwrap", [])
      | some cell =>
        if cell.flag < 0 then (.fatal "already mutably borrowed", [])
        else
          match b.update_row id cell.value.schema (as_row cell.value.fields) with
          | .error e => (.err e, [StorageOp.update_row id (as_row cell.value.fields)])
          | .ok _ =>
            match commitLoop b cache rest with
            | (r, ops) => (r, StorageOp.update_row id (as_row cell.value.fields) :: ops)
    | ObjectState.Removed =>
      match assocFind id cache with
      | none => (.fatal "cache unwrap", [])
      | some cell =>
        if cell.flag < 0 then (.fatal "already mutably borrowed", [])
        else
          match b.delete_row id cell.value.schema with
          | .error e => (.err e, [StorageOp.delete_row id])
          | .ok _ =>
            match commitLoop b cache rest with
            | (r, ops) => (r, StorageOp.delete_row id :: ops)

/-- Transaction::commit (transaction.rs lines 91-110): flush every
non-Clean entry, then issue the backend commit. -/
def Transaction.commit (b : Backend) (ts : TxnState) :
    TxResult Unit × List StorageOp :=
  match commitLoop b ts.cache ts.states with
  | (TxResult.ok _, ops) =>
    match b.commitTx with
    | .error e => (.err e, ops ++ [StorageOp.commitTx])
    | .ok _ => (.ok (), ops ++ [StorageOp.commitTx])
  | (r, ops) => (r, ops)

/-- Transaction::rollback (transaction.rs lines 112-114). -/
def Transaction.rollback (b : Backend) : TxResult Unit × List StorageOp :=
  match b.rollbackTx with
  | .error e => (.err e, [StorageOp.rollbackTx])
  | .ok _ => (.ok (), [StorageOp.rollbackTx])

/-- Is this trace element an update_row call for the given identity? -/
def isUpdateFor (id : ObjectId) : StorageOp → Bool
  | StorageOp.update_row i _ => decide (i = id)
  | _ => false

/-- Is this trace element a delete_row call for the given identity? -/
def isDeleteFor (id : ObjectId) : StorageOp → Bool
  | StorageOp.delete_row i => decide (i = id)
  | _ => false

/-- Is this trace element the backend commit? -/
def isCommitOp : StorageOp → Bool
  | StorageOp.commitTx => true
  | _ => false

/-- The backend rejects this write call with the given error. -/
def opFailsWith (b : Backend) (e : Error) : StorageOp → Prop
  | StorageOp.update_row id row => ∃ s, b.update_row id s row = Except.error e
  | StorageOp.delete_row id => ∃ s, b.delete_row id s = Except.error e
  | _ => False

/-- Concrete test fixtures (used by the witness theorems). -/
def sampleSchema : Schema :=
  { table_name := "users"
    field_names := ["name", "count"]
    column_names := ["name", "count"]
    column_types := [DataType.String, DataType.Int64]
    type_name := "User" }

def sampleObj : StoredObj :=
  { schema := sampleSchema, fields := [FieldVal.str "x", FieldVal.i64 1] }

def sampleBackend : Backend :=
  { table_exists := fun _ => Except.ok true
    create_table := fun _ => Except.ok ()
    insert_row := fun _ _ => Except.ok 1
    update_row := fun _ _ _ => Except.ok ()
    select_row := fun _ _ => Except.ok []
    delete_row := fun _ _ => Except.ok ()
    commitTx := Except.ok ()
    rollbackTx := Except.ok () }

/-- A backend whose delete_row always fails (for the commit-abort witness). -/
def failingBackend : Backend :=
  { sampleBackend with delete_row := fun _ _ => Except.error Error.LockConflict }

def emptyTs : TxnState := { cache := [], states := [] }

/-- A transaction state with one Modified, one Removed and one Clean entry. -/
def sampleTs3 : TxnState :=
  { cache := [(1, { value := sampleObj, flag := 0 }),
              (2, { value := sampleObj, flag := 0 }),
              (3, { value := sampleObj, flag := 0 })]
    states := [(1, ObjectState.Modified), (2, ObjectState.Removed),
               (3, ObjectState.Clean)] }

/-- A transaction state with a single Removed entry. -/
def removedTs : TxnState :=
  { cache := [(1, { value := sampleObj, flag := 0 })]
    states := [(1, ObjectState.Removed)] }

/-- A transaction state whose single entry is exclusively borrowed. -/
def lockedTs : TxnState :=
  { cache := [(1, { value := sampleObj, flag := -1 })]
    states := [(1, ObjectState.Modified)] }

/-- A transaction state whose single entry has one shared borrow. -/
def sharedTs : TxnState :=
  { cache := [(1, { value := sampleObj, flag := 1 })]
    states := [(1, ObjectState.Clean)] }

def sampleHandle : Handle := { id := 1, typeName := "User" }

----------------------------------------------------------------------------
-- Helper lemmas
----------------------------------------------------------------------------

theorem valueIntoField_kind_toValue (f : FieldVal) :
    valueIntoField f.kind f.toValue = some f := by
  cases f <;> rfl

theorem popLast_concat (l : Row) (v : Value) :
    popLast (l ++ [v]) = some (v, l) := by
  simp [popLast, List.getLast?_concat, List.dropLast_concat]

theorem fromRowRev_roundtrip (o : List FieldVal) :
    fromRowRev (o.map FieldVal.kind).reverse (as_row o) = some (o.reverse, []) := by
  induction o using List.reverseRecOn with
  | nil => rfl
  | append_singleton fs f ih =>
    have hrow : as_row (fs ++ [f]) = as_row fs ++ [f.toValue] := by
      simp [as_row]
    have hkinds : ((fs ++ [f]).map FieldVal.kind).reverse
        = f.kind :: (fs.map FieldVal.kind).reverse := by
      simp
    rw [hrow, hkinds]
    simp only [fromRowRev, popLast_concat (as_row fs) f.toValue,
      valueIntoField_kind_toValue, ih]
    simp

theorem assocFind_insert_self [DecidableEq α] (k : α) (v : β) (l : List (α × β)) :
    assocFind k (assocInsert k v l) = some v := by
  induction l with
  | nil => simp [assocInsert, assocFind]
  | cons hd tl ih =>
    obtain ⟨k', v'⟩ := hd
    by_cases h : k = k' <;> simp [assocInsert, assocFind, h, ih]

theorem assocFind_insert_ne [DecidableEq α] (k k' : α) (v : β) (l : List (α × β))
    (h : k ≠ k') : assocFind k (assocInsert k' v l) = assocFind k l := by
  induction l with
  | nil => simp [assocInsert, assocFind, h]
  | cons hd tl ih =>
    obtain ⟨k'', v''⟩ := hd
    by_cases h' : k' = k'' <;> by_cases h'' : k = k'' <;>
      simp_all [assocInsert, assocFind]

theorem create_ok_inv (b : Backend) (ts : TxnState) (obj : StoredObj)
    (h : Handle) (ts' : TxnState) (ops : List StorageOp)
    (hc : Transaction.create b ts obj = (TxResult.ok h, ts', ops)) :
    ∃ id, b.insert_row obj.schema (as_row obj.fields) = Except.ok id ∧
      h = { id := id, typeName := obj.schema.type_name } ∧
      ts' = { cache := assocInsert id { value := obj, flag := 0 } ts.cache,
              states := assocInsert id ObjectState.Clean ts.states } := by
  unfold Transaction.create at hc
  rcases hens : ensure_table b obj.schema with ⟨r, ops0⟩
  rw [hens] at hc
  cases r with
  | error e => simp at hc
  | ok u =>
    rcases hins : b.insert_row obj.schema (as_row obj.fields) with e | id
    · rw [hins] at hc; simp at hc
    · rw [hins] at hc
      simp only [Prod.mk.injEq, TxResult.ok.injEq] at hc
      exact ⟨id, rfl, hc.1.symm, hc.2.1.symm⟩

theorem borrow_states_eq (ts : TxnState) (h : Handle) :
    (Handle.borrow ts h).2.states = ts.states := by
  unfold Handle.borrow
  repeat' split
  all_goals rfl

theorem writeValue_states_eq (ts : TxnState) (id : ObjectId) (fs : List FieldVal) :
    (writeValue ts id fs).states = ts.states := by
  unfold writeValue
  split <;> rfl

theorem releaseBorrow_states_eq (ts : TxnState) (id : ObjectId) :
    (releaseBorrow ts id).states = ts.states := by
  unfold releaseBorrow
  split <;> rfl

theorem releaseBorrowMut_states_eq (ts : TxnState) (id : ObjectId) :
    (releaseBorrowMut ts id).states = ts.states := by
  unfold releaseBorrowMut
  split <;> rfl

theorem borrow_mut_states_not_removed (ts : TxnState) (h : Handle)
    (st : ObjectState) (hst : assocFind h.id ts.states = some st)
    (hr : st ≠ ObjectState.Removed) :
    (Handle.borrow_mut ts h).2.states
      = assocInsert h.id ObjectState.Modified ts.states := by
  unfold Handle.borrow_mut
  rw [hst]
  dsimp only
  rw [if_neg hr]
  repeat' split
  all_goals rfl

theorem borrow_mut_removed_eq (ts : TxnState) (h : Handle)
    (hst : assocFind h.id ts.states = some ObjectState.Removed) :
    Handle.borrow_mut ts h = (TxResult.fatal "cannot borrow a removed object", ts) := by
  simp [Handle.borrow_mut, hst]

theorem borrow_mut_ok_states (ts : TxnState) (h : Handle) (v : List FieldVal)
    (ts' : TxnState) (hbm : Handle.borrow_mut ts h = (TxResult.ok v, ts')) :
    assocFind h.id ts'.states = some ObjectState.Modified := by
  have hstates : ts'.states = assocInsert h.id ObjectState.Modified ts.states := by
    unfold Handle.borrow_mut at hbm
    rcases hst : assocFind h.id ts.states with _ | st
    · rw [hst] at hbm; simp at hbm
    · rw [hst] at hbm
      by_cases hr : st = ObjectState.Removed
      · simp [hr] at hbm
      · dsimp only at hbm
        rw [if_neg hr] at hbm
        rcases hc : assocFind h.id ts.cache with _ | cell
        · simp [hc] at hbm
        · simp only [hc] at hbm
          by_cases hf : cell.flag = 0
          · simp only [hf, if_true, if_pos] at hbm
            by_cases hd : cell.value.schema.type_name = h.typeName
            · simp [hd] at hbm
              rw [← hbm.2]
            · simp [hd] at hbm
          · simp [hf] at hbm
  rw [hstates, assocFind_insert_self]

theorem delete_ok_states (ts : TxnState) (h : Handle) (ts' : TxnState)
    (hdel : Handle.delete ts h = (TxResult.ok (), ts')) :
    assocFind h.id ts'.states = some ObjectState.Removed := by
  unfold Handle.delete at hdel
  rcases hc : assocFind h.id ts.cache with _ | cell
  · rw [hc] at hdel; simp at hdel
  · rw [hc] at hdel
    by_cases hf : cell.flag = 0
    · simp only [hf, if_true, if_pos] at hdel
      simp only [Prod.mk.injEq] at hdel
      rw [← hdel.2, assocFind_insert_self]
    · simp [hf] at hdel

theorem delete_states_removed_stays (ts : TxnState) (h : Handle)
    (hrem : assocFind h.id ts.states = some ObjectState.Removed) :
    assocFind h.id (Handle.delete ts h).2.states = some ObjectState.Removed := by
  unfold Handle.delete
  rcases hc : assocFind h.id ts.cache with _ | cell
  · simpa using hrem
  · by_cases hf : cell.flag = 0
    · simp [hf, assocFind_insert_self]
    · simpa [hf] using hrem

theorem commitLoop_counts_zero (b : Backend) (cache : List (ObjectId × Cell))
    (states : List (ObjectId × ObjectState)) (r : TxResult Unit)
    (tr : List StorageOp) (id : ObjectId)
    (hcl : commitLoop b cache states = (r, tr))
    (hnm : id ∉ states.map Prod.fst) :
    tr.countP (isUpdateFor id) = 0 ∧ tr.countP (isDeleteFor id) = 0 := by
  induction states generalizing r tr with
  | nil =>
    simp only [commitLoop] at hcl
    cases hcl
    simp
  | cons hd rest ih =>
    obtain ⟨i, s⟩ := hd
    have hni : id ≠ i := by
      intro e; exact hnm (by simp [e])
    have hnm' : id ∉ rest.map Prod.fst := by
      intro hmem; exact hnm (by simp [hmem])
    cases s with
    | Clean =>
      simp only [commitLoop] at hcl
      exact ih r tr hcl hnm'
    | Modified =>
      simp only [commitLoop] at hcl
      rcases hfind : assocFind i cache with _ | cell <;> rw [hfind] at hcl <;>
        dsimp only at hcl
      · cases hcl; simp
      · by_cases hflag : cell.flag < 0
        · rw [if_pos hflag] at hcl; cases hcl; simp
        · rw [if_neg hflag] at hcl
          rcases hupd : b.update_row i cell.value.schema (as_row cell.value.fields)
            with e | u <;> rw [hupd] at hcl
          · cases hcl
            simp [isUpdateFor, isDeleteFor, hni.symm]
          · rcases hrest : commitLoop b cache rest with ⟨r', ops'⟩
            rw [hrest] at hcl
            have hcl2 : (r', StorageOp.update_row i (as_row cell.value.fields) :: ops')
                = (r, tr) := hcl
            cases hcl2
            have hih := ih r ops' hrest hnm'
            simp [List.countP_cons, isUpdateFor, isDeleteFor, hni.symm, hih.1, hih.2]
    | Removed =>
      simp only [commitLoop] at hcl
      rcases hfind : assocFind i cache with _ | cell <;> rw [hfind] at hcl <;>
        dsimp only at hcl
      · cases hcl; simp
      · by_cases hflag : cell.flag < 0
        · rw [if_pos hflag] at hcl; cases hcl; simp
        · rw [if_neg hflag] at hcl
          rcases hdel : b.delete_row i cell.value.schema with e | u <;>
            rw [hdel] at hcl
          · cases hcl
            simp [isUpdateFor, isDeleteFor, hni.symm]
          · rcases hrest : commitLoop b cache rest with ⟨r', ops'⟩
            rw [hrest] at hcl
            have hcl2 : (r', StorageOp.delete_row i :: ops') = (r, tr) := hcl
            cases hcl2
            have hih := ih r ops' hrest hnm'
            simp [List.countP_cons, isUpdateFor, isDeleteFor, hni.symm, hih.1, hih.2]

theorem commitLoop_no_commitOp (b : Backend) (cache : List (ObjectId × Cell))
    (states : List (ObjectId × ObjectState)) (r : TxResult Unit)
    (tr : List StorageOp) (hcl : commitLoop b cache states = (r, tr)) :
    tr.countP isCommitOp = 0 := by
  induction states generalizing r tr with
  | nil =>
    simp only [commitLoop] at hcl
    cases hcl
    simp
  | cons hd rest ih =>
    obtain ⟨i, s⟩ := hd
    cases s with
    | Clean =>
      simp only [commitLoop] at hcl
      exact ih r tr hcl
    | Modified =>
      simp only [commitLoop] at hcl
      rcases hfind : assocFind i cache with _ | cell <;> rw [hfind] at hcl <;>
        dsimp only at hcl
      · cases hcl; simp
      · by_cases hflag : cell.flag < 0
        · rw [if_pos hflag] at hcl; cases hcl; simp
        · rw [if_neg hflag] at hcl
          rcases hupd : b.update_row i cell.value.schema (as_row cell.value.fields)
            with e | u <;> rw [hupd] at hcl
          · cases hcl; simp [isCommitOp]
          · rcases hrest : commitLoop b cache rest with ⟨r', ops'⟩
            rw [hrest] at hcl
            have hcl2 : (r', StorageOp.update_row i (as_row cell.value.fields) :: ops')
                = (r, tr) := hcl
            cases hcl2
            simp [List.countP_cons, isCommitOp, ih r ops' hrest]
    | Removed =>
      simp only [commitLoop] at hcl
      rcases hfind : assocFind i cache with _ | cell <;> rw [hfind] at hcl <;>
        dsimp only at hcl
      · cases hcl; simp
      · by_cases hflag : cell.flag < 0
        · rw [if_pos hflag] at hcl; cases hcl; simp
        · rw [if_neg hflag] at hcl
          rcases hdel : b.delete_row i cell.value.schema with e | u <;>
            rw [hdel] at hcl
          · cases hcl; simp [isCommitOp]
          · rcases hrest : commitLoop b cache rest with ⟨r', ops'⟩
            rw [hrest] at hcl
            have hcl2 : (r', StorageOp.delete_row i :: ops') = (r, tr) := hcl
            cases hcl2
            simp [List.countP_cons, isCommitOp, ih r ops' hrest]

theorem commitLoop_ok_counts (b : Backend) (cache : List (ObjectId × Cell))
    (states : List (ObjectId × ObjectState)) (tr : List StorageOp)
    (hnd : (states.map Prod.fst).Nodup)
    (hcl : commitLoop b cache states = (TxResult.ok (), tr)) :
    ∀ id st, (id, st) ∈ states →
      tr.countP (isUpdateFor id) = (if st = ObjectState.Modified then 1 else 0) ∧
      tr.countP (isDeleteFor id) = (if st = ObjectState.Removed then 1 else 0) := by
  induction states generalizing tr with
  | nil =>
    intro id st hmem
    simp at hmem
  | cons hd rest ih =>
    obtain ⟨i, s⟩ := hd
    have hnd' : (rest.map Prod.fst).Nodup := (List.nodup_cons.mp hnd).2
    have hihd : i ∉ rest.map Prod.fst := (List.nodup_cons.mp hnd).1
    intro id st hmem
    cases s with
    | Clean =>
      simp only [commitLoop] at hcl
      rcases List.mem_cons.mp hmem with hhd | htl
      · injection hhd with hid hst
        subst hid; subst hst
        have hz := commitLoop_counts_zero b cache rest (TxResult.ok ()) tr id hcl hihd
        simp [hz.1, hz.2]
      · exact ih tr hnd' hcl id st htl
    | Modified =>
      simp only [commitLoop] at hcl
      rcases hfind : assocFind i cache with _ | cell <;> rw [hfind] at hcl <;>
        dsimp only at hcl
      · cases hcl
      · by_cases hflag : cell.flag < 0
        · rw [if_pos hflag] at hcl; cases hcl
        · rw [if_neg hflag] at hcl
          rcases hupd : b.update_row i cell.value.schema (as_row cell.value.fields)
            with e | u <;> rw [hupd] at hcl
          · cases hcl
          · rcases hrest : commitLoop b cache rest with ⟨r', ops'⟩
            rw [hrest] at hcl
            have hcl2 : (r', StorageOp.update_row i (as_row cell.value.fields) :: ops')
                = (TxResult.ok (), tr) := hcl
            injection hcl2 with hr htr
            subst hr
            subst htr
            rcases List.mem_cons.mp hmem with hhd | htl
            · injection hhd with hid hst
              subst hid; subst hst
              have hz := commitLoop_counts_zero b cache rest (TxResult.ok ())
                ops' id hrest hihd
              simp [List.countP_cons, isUpdateFor, isDeleteFor, hz.1, hz.2]
            · have hne : id ≠ i := by
                intro e
                subst e
                exact hihd (List.mem_map_of_mem Prod.fst htl)
              have hih := ih ops' hnd' hrest id st htl
              simp [List.countP_cons, isUpdateFor, isDeleteFor, hne.symm,
                hih.1, hih.2]
    | Removed =>
      simp only [commitLoop] at hcl
      rcases hfind : assocFind i cache with _ | cell <;> rw [hfind] at hcl <;>
        dsimp only at hcl
      · cases hcl
      · by_cases hflag : cell.flag < 0
        · rw [if_pos hflag] at hcl; cases hcl
        · rw [if_neg hflag] at hcl
          rcases hdel : b.delete_row i cell.value.schema with e | u <;>
            rw [hdel] at hcl
          · cases hcl
          · rcases hrest : commitLoop b cache rest with ⟨r', ops'⟩
            rw [hrest] at hcl
            have hcl2 : (r', StorageOp.delete_row i :: ops')
                = (TxResult.ok (), tr) := hcl
            injection hcl2 with hr htr
            subst hr
            subst htr
            rcases List.mem_cons.mp hmem with hhd | htl
            · injection hhd with hid hst
              subst hid; subst hst
              have hz := commitLoop_counts_zero b cache rest (TxResult.ok ())
                ops' id hrest hihd
              simp [List.countP_cons, isUpdateFor, isDeleteFor, hz.1, hz.2]
            · have hne : id ≠ i := by
                intro e
                subst e
                exact hihd (List.mem_map_of_mem Prod.fst htl)
              have hih := ih ops' hnd' hrest id st htl
              simp [List.countP_cons, isUpdateFor, isDeleteFor, hne.symm,
                hih.1, hih.2]

theorem commitLoop_err_last (b : Backend) (cache : List (ObjectId × Cell))
    (states : List (ObjectId × ObjectState)) (e : Error) (tr : List StorageOp)
    (hcl : commitLoop b cache states = (TxResult.err e, tr)) :
    ∃ tr0 op, tr = tr0 ++ [op] ∧ opFailsWith b e op := by
  induction states generalizing tr with
  | nil =>
    simp only [commitLoop] at hcl
    cases hcl
  | cons hd rest ih =>
    obtain ⟨i, s⟩ := hd
    cases s with
    | Clean =>
      simp only [commitLoop] at hcl
      exact ih tr hcl
    | Modified =>
      simp only [commitLoop] at hcl
      rcases hfind : assocFind i cache with _ | cell <;> rw [hfind] at hcl <;>
        dsimp only at hcl
      · cases hcl
      · by_cases hflag : cell.flag < 0
        · rw [if_pos hflag] at hcl; cases hcl
        · rw [if_neg hflag] at hcl
          rcases hupd : b.update_row i cell.value.schema (as_row cell.value.fields)
            with e' | u <;> rw [hupd] at hcl
          · injection hcl with hr htr
            injection hr with he
            subst he; subst htr
            exact ⟨[], StorageOp.update_row i (as_row cell.value.fields),
              by simp, cell.value.schema, hupd⟩
          · rcases hrest : commitLoop b cache rest with ⟨r', ops'⟩
            rw [hrest] at hcl
            have hcl2 : (r', StorageOp.update_row i (as_row cell.value.fields) :: ops')
                = (TxResult.err e, tr) := hcl
            injection hcl2 with hr htr
            subst hr; subst htr
            obtain ⟨tr0, op, htr0, hfail⟩ := ih ops' hrest
            exact ⟨StorageOp.update_row i (as_row cell.value.fields) :: tr0, op,
              by simp [htr0], hfail⟩
    | Removed =>
      simp only [commitLoop] at hcl
      rcases hfind : assocFind i cache with _ | cell <;> rw [hfind] at hcl <;>
        dsimp only at hcl
      · cases hcl
      · by_cases hflag : cell.flag < 0
        · rw [if_pos hflag] at hcl; cases hcl
        · rw [if_neg hflag] at hcl
          rcases hdel : b.delete_row i cell.value.schema with e' | u <;>
            rw [hdel] at hcl
          · injection hcl with hr htr
            injection hr with he
            subst he; subst htr
            exact ⟨[], StorageOp.delete_row i, by simp, cell.value.schema, hdel⟩
          · rcases hrest : commitLoop b cache rest with ⟨r', ops'⟩
            rw [hrest] at hcl
            have hcl2 : (r', StorageOp.delete_row i :: ops')
                = (TxResult.err e, tr) := hcl
            injection hcl2 with hr htr
            subst hr; subst htr
            obtain ⟨tr0, op, htr0, hfail⟩ := ih ops' hrest
            exact ⟨StorageOp.delete_row i :: tr0, op, by simp [htr0], hfail⟩

theorem commit_ok_inv (b : Backend) (ts : TxnState) (tr : List StorageOp)
    (h : Transaction.commit b ts = (TxResult.ok (), tr)) :
    ∃ tr0, commitLoop b ts.cache ts.states = (TxResult.ok (), tr0) ∧
      b.commitTx = Except.ok () ∧ tr = tr0 ++ [StorageOp.commitTx] := by
  unfold Transaction.commit at h
  rcases hcl : commitLoop b ts.cache ts.states with ⟨r, ops⟩
  rw [hcl] at h
  cases r with
  | ok a =>
    cases a
    rcases hct : b.commitTx with e | u <;> rw [hct] at h <;> dsimp only at h
    · cases h
    · cases u
      injection h with hr htr
      exact ⟨ops, rfl, rfl, htr.symm⟩
  | err e => cases h
  | fatal m => cases h

theorem get_removed_eq (b : Backend) (ts : TxnState) (sch : Schema)
    (id : ObjectId) (hrem : assocFind id ts.states = some ObjectState.Removed)
    (hcache : (assocFind id ts.cache).isSome = true) :
    Transaction.get b ts sch id =
      (TxResult.err (Error.NotFound id sch.type_name), ts, []) := by
  simp [Transaction.get, hcache, hrem]

----------------------------------------------------------------------------
-- Claim theorems
----------------------------------------------------------------------------

/-- Claim C5: for every object o of a mapped type (fields drawn from the
five supported primitive kinds), the derived conversions satisfy
from_row(as_row(o)) = o field for field, with as_row emitting one Value
per field in declared order. -/
theorem round_trip_from_row_as_row (o : List FieldVal) :
    from_row (o.map FieldVal.kind) (as_row o) = some o ∧
    as_row o = o.map FieldVal.toValue ∧
    (as_row o).length = o.length := by
  refine ⟨?_, rfl, by simp [as_row]⟩
  simp [from_row, fromRowRev_roundtrip o]

/-- Claim C3: for an identity whose cache entry is Removed within the
transaction, Tx::borrow and Tx::borrow_mut fail fatally and a fresh
Transaction::get fails with NotFound; none of them returns the cached
object's data. -/
theorem use_after_delete_rejected (ts : TxnState) (h : Handle)
    (hrem : assocFind h.id ts.states = some ObjectState.Removed) :
    Handle.borrow ts h = (TxResult.fatal "cannot borrow a removed object", ts) ∧
    Handle.borrow_mut ts h = (TxResult.fatal "cannot borrow a removed object", ts) ∧
    ∀ (b : Backend) (sch : Schema), (assocFind h.id ts.cache).isSome = true →
      Transaction.get b ts sch h.id =
        (TxResult.err (Error.NotFound h.id sch.type_name), ts, []) := by
  refine ⟨?_, ?_, ?_⟩
  · simp [Handle.borrow, hrem]
  · simp [Handle.borrow_mut, hrem]
  · intro b sch hcache
    exact get_removed_eq b ts sch h.id hrem hcache

/-- Witness for C3 at a concrete Removed entry. -/
theorem use_after_delete_rejected_witness :
    assocFind sampleHandle.id removedTs.states = some ObjectState.Removed ∧
    Handle.borrow removedTs sampleHandle =
      (TxResult.fatal "cannot borrow a removed object", removedTs) ∧
    Transaction.get sampleBackend removedTs sampleSchema sampleHandle.id =
      (TxResult.err (Error.NotFound sampleHandle.id sampleSchema.type_name),
       removedTs, []) := by
  have h := use_after_delete_rejected removedTs sampleHandle (by decide)
  exact ⟨by decide, h.1, h.2.2 sampleBackend sampleSchema (by decide)⟩

/-- Claim C9: a second mutable borrow while one is outstanding on the same
entry is rejected fatally, and deleting while mutably borrowed is
rejected fatally. -/
theorem exclusivity_enforced (ts : TxnState) (h : Handle) (st : ObjectState)
    (cell : Cell) (hst : assocFind h.id ts.states = some st)
    (hcell : assocFind h.id ts.cache = some cell) (hflag : cell.flag = -1) :
    (Handle.borrow_mut ts h).1.isFatal = true ∧
    (Handle.delete ts h).1 = TxResult.fatal "cannot delete a borrowed object" := by
  constructor
  · by_cases hr : st = ObjectState.Removed
    · subst hr
      simp [Handle.borrow_mut, hst, TxResult.isFatal]
    · simp [Handle.borrow_mut, hst, hr, hcell, hflag, TxResult.isFatal]
  · simp [Handle.delete, hcell, hflag]

/-- Witness for C9 at a concrete exclusively borrowed entry. -/
theorem exclusivity_enforced_witness :
    assocFind sampleHandle.id lockedTs.states = some ObjectState.Modified ∧
    (Handle.borrow_mut lockedTs sampleHandle).1.isFatal = true ∧
    (Handle.delete lockedTs sampleHandle).1 =
      TxResult.fatal "cannot delete a borrowed object" := by
  have h := exclusivity_enforced lockedTs sampleHandle ObjectState.Modified
    { value := sampleObj, flag := -1 } (by decide) (by decide) (by decide)
  exact ⟨by decide, h.1, h.2⟩

/-- Claim C10: Tx::delete fails fatally whenever any borrow of the payload
cell is outstanding, shared borrows included, because the deletion guard
(try_borrow_mut) requires exclusive access. -/
theorem delete_rejects_any_outstanding_borrow (ts : TxnState) (h : Handle)
    (cell : Cell) (hcell : assocFind h.id ts.cache = some cell)
    (hflag : cell.flag ≠ 0) :
    Handle.delete ts h =
      (TxResult.fatal "cannot delete a borrowed object", ts) := by
  simp [Handle.delete, hcell, hflag]

/-- Witness for C10 at a concrete entry holding one shared borrow. -/
theorem delete_rejects_any_outstanding_borrow_witness :
    assocFind sampleHandle.id sharedTs.cache =
      some { value := sampleObj, flag := 1 } ∧
    Handle.delete sharedTs sampleHandle =
      (TxResult.fatal "cannot delete a borrowed object", sharedTs) := by
  exact ⟨by decide,
    delete_rejects_any_outstanding_borrow sharedTs sampleHandle
      { value := sampleObj, flag := 1 } (by decide) (by decide)⟩

/-- Claim C2: the ObjectState three-state machine.  Immediately after
Transaction::create the state is Clean; a successful Tx::borrow_mut
leaves the state Modified; a Modified state survives any further read,
write, or guard release; a successful Tx::delete leaves the state
Removed; and Removed is terminal: borrow, borrow_mut, delete and a fresh
get never transition the entry away from Removed. -/
theorem dirty_state_machine :
    (∀ (b : Backend) (ts : TxnState) (obj : StoredObj) (h : Handle)
       (ts' : TxnState) (ops : List StorageOp),
       Transaction.create b ts obj = (TxResult.ok h, ts', ops) →
       assocFind h.id ts'.states = some ObjectState.Clean) ∧
    (∀ (ts : TxnState) (h : Handle) (v : List FieldVal) (ts' : TxnState),
       Handle.borrow_mut ts h = (TxResult.ok v, ts') →
       assocFind h.id ts'.states = some ObjectState.Modified) ∧
    (∀ (ts : TxnState) (h : Handle),
       assocFind h.id ts.states = some ObjectState.Modified →
       assocFind h.id (Handle.borrow ts h).2.states = some ObjectState.Modified ∧
       assocFind h.id (Handle.borrow_mut ts h).2.states = some ObjectState.Modified ∧
       (∀ fs, assocFind h.id (writeValue ts h.id fs).states
          = some ObjectState.Modified) ∧
       assocFind h.id (releaseBorrow ts h.id).states = some ObjectState.Modified ∧
       assocFind h.id (releaseBorrowMut ts h.id).states
         = some ObjectState.Modified) ∧
    (∀ (ts : TxnState) (h : Handle) (ts' : TxnState),
       Handle.delete ts h = (TxResult.ok (), ts') →
       assocFind h.id ts'.states = some ObjectState.Removed) ∧
    (∀ (ts : TxnState) (h : Handle),
       assocFind h.id ts.states = some ObjectState.Removed →
       assocFind h.id (Handle.borrow ts h).2.states = some ObjectState.Removed ∧
       assocFind h.id (Handle.borrow_mut ts h).2.states = some ObjectState.Removed ∧
       assocFind h.id (Handle.delete ts h).2.states = some ObjectState.Removed ∧
       (∀ (b : Backend) (sch : Schema), (assocFind h.id ts.cache).isSome = true →
          assocFind h.id (Transaction.get b ts sch h.id).2.1.states
            = some ObjectState.Removed)) := by
  refine ⟨?_, ?_, ?_, ?_, ?_⟩
  · intro b ts obj h ts' ops hc
    obtain ⟨id, _, hh, hts⟩ := create_ok_inv b ts obj h ts' ops hc
    rw [hts, hh]
    exact assocFind_insert_self id ObjectState.Clean ts.states
  · intro ts h v ts' hbm
    exact borrow_mut_ok_states ts h v ts' hbm
  · intro ts h hmod
    refine ⟨?_, ?_, ?_, ?_, ?_⟩
    · rw [borrow_states_eq]; exact hmod
    · rw [borrow_mut_states_not_removed ts h ObjectState.Modified hmod (by simp)]
      exact assocFind_insert_self h.id ObjectState.Modified ts.states
    · intro fs; rw [writeValue_states_eq]; exact hmod
    · rw [releaseBorrow_states_eq]; exact hmod
    · rw [releaseBorrowMut_states_eq]; exact hmod
  · intro ts h ts' hdel
    exact delete_ok_states ts h ts' hdel
  · intro ts h hrem
    refine ⟨?_, ?_, ?_, ?_⟩
    · rw [borrow_states_eq]; exact hrem
    · rw [borrow_mut_removed_eq ts h hrem]; exact hrem
    · exact delete_states_removed_stays ts h hrem
    · intro b sch hcache
      rw [get_removed_eq b ts sch h.id hrem hcache]
      exact hrem

/-- Witness for C2: the create part at a concrete backend and object. -/
theorem dirty_state_machine_witness :
    Transaction.create sampleBackend emptyTs sampleObj =
      (TxResult.ok sampleHandle,
       { cache := [(1, { value := sampleObj, flag := 0 })],
         states := [(1, ObjectState.Clean)] },
       [StorageOp.table_exists "users",
        StorageOp.insert_row "users" [Value.String "x", Value.Int64 1]]) ∧
    assocFind sampleHandle.id
      (TxnState.mk [(1, { value := sampleObj, flag := 0 })]
        [(1, ObjectState.Clean)]).states = some ObjectState.Clean := by
  refine ⟨by decide, ?_⟩
  exact dirty_state_machine.1 sampleBackend emptyTs sampleObj sampleHandle
    { cache := [(1, { value := sampleObj, flag := 0 })],
      states := [(1, ObjectState.Clean)] }
    [StorageOp.table_exists "users",
     StorageOp.insert_row "users" [Value.String "x", Value.Int64 1]]
    (by decide)

/-- Claim C4: if create(o) succeeds with identity i then, within the same
transaction, get(i) succeeds with no storage call and returns a handle
whose borrow yields a value equal to o. -/
theorem identity_stability (b : Backend) (ts : TxnState) (obj : StoredObj)
    (h : Handle) (ts' : TxnState) (ops : List StorageOp)
    (hc : Transaction.create b ts obj = (TxResult.ok h, ts', ops)) :
    Transaction.get b ts' obj.schema h.id =
      (TxResult.ok { id := h.id, typeName := obj.schema.type_name }, ts', []) ∧
    (Handle.borrow ts' { id := h.id, typeName := obj.schema.type_name }).1 =
      TxResult.ok obj.fields := by
  obtain ⟨id, _, hh, hts⟩ := create_ok_inv b ts obj h ts' ops hc
  subst hh
  subst hts
  constructor
  · simp [Transaction.get, assocFind_insert_self]
  · simp [Handle.borrow, assocFind_insert_self]

/-- Witness for C4 at a concrete create. -/
theorem identity_stability_witness :
    Transaction.create sampleBackend emptyTs sampleObj =
      (TxResult.ok sampleHandle,
       { cache := [(1, { value := sampleObj, flag := 0 })],
         states := [(1, ObjectState.Clean)] },
       [StorageOp.table_exists "users",
        StorageOp.insert_row "users" [Value.String "x", Value.Int64 1]]) ∧
    Transaction.get sampleBackend
      (TxnState.mk [(1, { value := sampleObj, flag := 0 })]
        [(1, ObjectState.Clean)]) sampleObj.schema sampleHandle.id =
      (TxResult.ok { id := sampleHandle.id, typeName := sampleObj.schema.type_name },
       TxnState.mk [(1, { value := sampleObj, flag := 0 })]
         [(1, ObjectState.Clean)], []) ∧
    (Handle.borrow
      (TxnState.mk [(1, { value := sampleObj, flag := 0 })]
        [(1, ObjectState.Clean)])
      { id := sampleHandle.id, typeName := sampleObj.schema.type_name }).1 =
      TxResult.ok sampleObj.fields := by
  have h := identity_stability sampleBackend emptyTs sampleObj sampleHandle
    (TxnState.mk [(1, { value := sampleObj, flag := 0 })]
      [(1, ObjectState.Clean)])
    [StorageOp.table_exists "users",
     StorageOp.insert_row "users" [Value.String "x", Value.Int64 1]]
    (by decide)
  exact ⟨by decide, h.1, h.2⟩

/-- Claim C1: on a successful commit, each Modified entry produces exactly
one update_row call and no delete, each Removed entry exactly one
delete_row call and no update, and each Clean entry produces no storage
write at all. -/
theorem commit_minimality (b : Backend) (ts : TxnState) (tr : List StorageOp)
    (hnd : (ts.states.map Prod.fst).Nodup)
    (hok : Transaction.commit b ts = (TxResult.ok (), tr)) :
    ∀ id st, (id, st) ∈ ts.states →
      tr.countP (isUpdateFor id) = (if st = ObjectState.Modified then 1 else 0) ∧
      tr.countP (isDeleteFor id) = (if st = ObjectState.Removed then 1 else 0) := by
  obtain ⟨tr0, hcl, hct, htr⟩ := commit_ok_inv b ts tr hok
  subst htr
  intro id st hmem
  have h := commitLoop_ok_counts b ts.cache ts.states tr0 hnd hcl id st hmem
  simp [List.countP_append, isUpdateFor, isDeleteFor, h.1, h.2]

/-- Witness for C1 on a state with one Modified, one Removed and one Clean
entry, checked at the Modified entry. -/
theorem commit_minimality_witness :
    (sampleTs3.states.map Prod.fst).Nodup ∧
    Transaction.commit sampleBackend sampleTs3 =
      (TxResult.ok (),
       [StorageOp.update_row 1 [Value.String "x", Value.Int64 1],
        StorageOp.delete_row 2, StorageOp.commitTx]) ∧
    (List.countP (isUpdateFor 1)
        [StorageOp.update_row 1 [Value.String "x", Value.Int64 1],
         StorageOp.delete_row 2, StorageOp.commitTx]
      = (if ObjectState.Modified = ObjectState.Modified then 1 else 0) ∧
     List.countP (isDeleteFor 1)
        [StorageOp.update_row 1 [Value.String "x", Value.Int64 1],
         StorageOp.delete_row 2, StorageOp.commitTx]
      = (if ObjectState.Modified = ObjectState.Removed then 1 else 0)) := by
  refine ⟨by decide, by decide, ?_⟩
  exact commit_minimality sampleBackend sampleTs3
    [StorageOp.update_row 1 [Value.String "x", Value.Int64 1],
     StorageOp.delete_row 2, StorageOp.commitTx]
    (by decide) (by decide) 1 ObjectState.Modified (by decide)

/-- Claim C6: if a write issued during commit fails, commit stops at that
write, returns that error and never issues the backend commit; if every
write succeeds, the backend commit is issued exactly once (and its
outcome is the outcome of commit). -/
theorem commit_failure_aborts (b : Backend) (ts : TxnState) :
    (∀ e tr, commitLoop b ts.cache ts.states = (TxResult.err e, tr) →
       Transaction.commit b ts = (TxResult.err e, tr) ∧
       tr.countP isCommitOp = 0 ∧
       ∃ tr0 op, tr = tr0 ++ [op] ∧ opFailsWith b e op) ∧
    (∀ tr, commitLoop b ts.cache ts.states = (TxResult.ok (), tr) →
       (Transaction.commit b ts).2 = tr ++ [StorageOp.commitTx] ∧
       (tr ++ [StorageOp.commitTx]).countP isCommitOp = 1 ∧
       (b.commitTx = Except.ok () → (Transaction.commit b ts).1 = TxResult.ok ()) ∧
       (∀ e, b.commitTx = Except.error e →
          (Transaction.commit b ts).1 = TxResult.err e)) := by
  constructor
  · intro e tr hcl
    refine ⟨?_, commitLoop_no_commitOp b ts.cache ts.states (TxResult.err e) tr hcl,
      commitLoop_err_last b ts.cache ts.states e tr hcl⟩
    unfold Transaction.commit
    rw [hcl]
  · intro tr hcl
    have hz := commitLoop_no_commitOp b ts.cache ts.states (TxResult.ok ()) tr hcl
    have hcommit : Transaction.commit b ts =
        (match b.commitTx with
         | Except.error e => (TxResult.err e, tr ++ [StorageOp.commitTx])
         | Except.ok _ => (TxResult.ok (), tr ++ [StorageOp.commitTx])) := by
      unfold Transaction.commit
      rw [hcl]
    refine ⟨?_, ?_, ?_, ?_⟩
    · rcases hct : b.commitTx with e | u
      · rw [hcommit, hct]
      · rw [hcommit, hct]
    · simp [List.countP_append, isCommitOp, hz]
    · intro hct
      rw [hcommit, hct]
    · intro e hct
      rw [hcommit, hct]

/-- Witness for C6: a backend whose delete_row fails makes commit stop at
the failing delete, return its error, and skip the backend commit. -/
theorem commit_failure_aborts_witness :
    commitLoop failingBackend sampleTs3.cache sampleTs3.states =
      (TxResult.err Error.LockConflict,
       [StorageOp.update_row 1 [Value.String "x", Value.Int64 1],
        StorageOp.delete_row 2]) ∧
    (Transaction.commit failingBackend sampleTs3 =
       (TxResult.err Error.LockConflict,
        [StorageOp.update_row 1 [Value.String "x", Value.Int64 1],
         StorageOp.delete_row 2]) ∧
     List.countP isCommitOp
       [StorageOp.update_row 1 [Value.String "x", Value.Int64 1],
        StorageOp.delete_row 2] = 0 ∧
     ∃ tr0 op,
       [StorageOp.update_row 1 [Value.String "x", Value.Int64 1],
        StorageOp.delete_row 2] = tr0 ++ [op] ∧
       opFailsWith failingBackend Error.LockConflict op) := by
  refine ⟨by decide, ?_⟩
  exact (commit_failure_aborts failingBackend sampleTs3).1 Error.LockConflict
    [StorageOp.update_row 1 [Value.String "x", Value.Int64 1],
     StorageOp.delete_row 2] (by decide)

/-- Claim C7, counterexample: the claim says every storage-transaction
operation translates a locked backend failure into LockConflict, but
insert_row surfaces it as a raw backend error: at a concrete locked
failure during the insert step, the result is Error.Backend, not
Error.LockConflict. -/
theorem lock_conflict_not_universal :
    insertRowImpl sampleSchema (Except.ok ())
        (Except.error (SqliteError.SqliteFailure 5 (some "database is locked"))) =
      TxResult.err (Error.Backend
        (SqliteError.SqliteFailure 5 (some "database is locked"))) ∧
    insertRowImpl sampleSchema (Except.ok ())
        (Except.error (SqliteError.SqliteFailure 5 (some "database is locked"))) ≠
      TxResult.err Error.LockConflict := by
  exact ⟨by decide, by decide⟩

/-- Claim C7, amended: only create_table (at statement execution) translates
a "database is locked" backend failure into LockConflict; insert_row,
update_row, delete_row and select_row surface such failures as raw
backend errors (select_row's query stage panics instead of returning). -/
theorem lock_conflict_create_table_only (c : Int) (s : String)
    (hlock : strContains s "database is locked" = true) :
    (createTableImpl (Except.ok ())
        (Except.error (SqliteError.SqliteFailure c (some s))) =
      TxResult.err Error.LockConflict) ∧
    (∀ (schema : Schema) (iv : Except SqliteError ObjectId),
      has_missing_column_msg s = false →
      insertRowImpl schema (Except.error (SqliteError.SqliteFailure c (some s))) iv =
        TxResult.err (Error.Backend (SqliteError.SqliteFailure c (some s)))) ∧
    (∀ (schema : Schema),
      insertRowImpl schema (Except.ok ())
          (Except.error (SqliteError.SqliteFailure c (some s))) =
        TxResult.err (Error.Backend (SqliteError.SqliteFailure c (some s)))) ∧
    (updateRowImpl (Except.ok ())
        (Except.error (SqliteError.SqliteFailure c (some s))) =
      TxResult.err (Error.Backend (SqliteError.SqliteFailure c (some s)))) ∧
    (deleteRowImpl (Except.error (SqliteError.SqliteFailure c (some s))) =
      TxResult.err (Error.Backend (SqliteError.SqliteFailure c (some s)))) ∧
    (∀ (idv : ObjectId) (schema : Schema) (q : Except SqliteError (TxResult Row)),
      has_missing_column_msg s = false →
      selectRowImpl idv schema
          (Except.error (SqliteError.SqliteFailure c (some s))) q =
        TxResult.err (Error.Backend (SqliteError.SqliteFailure c (some s)))) ∧
    (∀ (idv : ObjectId) (schema : Schema),
      selectRowImpl idv schema (Except.ok ())
          (Except.error (SqliteError.SqliteFailure c (some s))) =
        TxResult.fatal "Not implemented from select row") := by
  refine ⟨?_, ?_, ?_, ?_, ?_, ?_, ?_⟩
  · simp [createTableImpl, hlock]
  · intro schema iv hmc
    simp [insertRowImpl, hmc, Error.fromSqlite]
  · intro schema
    simp [insertRowImpl, Error.fromSqlite]
  · simp [updateRowImpl, Error.fromSqlite]
  · simp [deleteRowImpl, Error.fromSqlite]
  · intro idv schema q hmc
    simp [selectRowImpl, hmc, Error.fromSqlite]
  · intro idv schema
    simp [selectRowImpl]

/-- Witness for the amended C7 at the literal locked message. -/
theorem lock_conflict_create_table_only_witness :
    strContains "database is locked" "database is locked" = true ∧
    createTableImpl (Except.ok ())
        (Except.error (SqliteError.SqliteFailure 5 (some "database is locked"))) =
      TxResult.err Error.LockConflict := by
  exact ⟨by decide,
    (lock_conflict_create_table_only 5 "database is locked" (by decide)).1⟩

/-- Claim C8: a backend failure at statement preparation during insert or
select whose message carries the missing-column signal is resolved
against the schema's column list and becomes a MissingColumn error
naming the offending field, column, table and type. -/
theorem missing_column_translated (schema : Schema) (c : Int) (s : String)
    (col : String) (i : Nat) (attr : String)
    (iv : Except SqliteError ObjectId) (idv : ObjectId)
    (q : Except SqliteError (TxResult Row))
    (hmc : has_missing_column_msg s = true)
    (hcol : schema.get_same_column_name (lastToken s) = some (col, i))
    (hattr : schema.field_names[i]? = some attr) :
    insertRowImpl schema (Except.error (SqliteError.SqliteFailure c (some s))) iv =
      TxResult.err
        (Error.MissingColumn schema.type_name attr schema.table_name col) ∧
    selectRowImpl idv schema
        (Except.error (SqliteError.SqliteFailure c (some s))) q =
      TxResult.err
        (Error.MissingColumn schema.type_name attr schema.table_name col) := by
  have hp : parse_missing_column s schema =
      some (Error.MissingColumn schema.type_name attr schema.table_name col) := by
    simp [parse_missing_column, hcol, hattr]
  constructor
  · simp [insertRowImpl, hmc, hp]
  · simp [selectRowImpl, hmc, hp]

/-- Witness for C8 at a concrete sqlite missing-column message. -/
theorem missing_column_translated_witness :
    has_missing_column_msg "no such column: count" = true ∧
    insertRowImpl sampleSchema
        (Except.error (SqliteError.SqliteFailure 1
          (some "no such column: count"))) (Except.ok 1) =
      TxResult.err (Error.MissingColumn "User" "count" "users" "count") ∧
    selectRowImpl 1 sampleSchema
        (Except.error (SqliteError.SqliteFailure 1
          (some "no such column: count")))
        (Except.ok (TxResult.ok [])) =
      TxResult.err (Error.MissingColumn "User" "count" "users" "count") := by
  have h := missing_column_translated sampleSchema 1 "no such column: count"
    "count" 1 "count" (Except.ok 1) 1 (Except.ok (TxResult.ok []))
    (by decide) (by decide) (by decide)
  exact ⟨by decide, h.1, h.2⟩

end Yorm
